import Mathlib

/-!
Shallow embedding of the voice-calendar assistant's natural-language temporal
parser (src/nlp_parser.py) and interval-conflict resolver (src/calendar_bot.py).

Text is modelled as `List Char`; each Python regular expression is transcribed
as an anchored matcher (leftmost search, ordered alternation, greedy
quantifiers with longest-first backtracking), matching the semantics of
Python's `re.search` / `re.sub` for the patterns in question.  Python's `\s`
is modelled as ASCII whitespace and `\d` as ASCII digits (the inputs of
interest contain no other whitespace or digit characters).  `datetime.date`
is modelled by the proleptic-Gregorian `Date` structure below, `datetime`
instants by minutes since the epoch of `Date.toOrdinal`, and a raised Python
exception by the `Except PyErr` channel.
-/

namespace VCA

/-- ASCII decimal digit, the model of the regex class `\d` / `[0-9]`. -/
def isDigitCh (c : Char) : Bool := '0' ≤ c && c ≤ '9'

/-- ASCII whitespace, the model of the regex class `\s`. -/
def isSpaceCh (c : Char) : Bool :=
  c = ' ' || c = '\t' || c = '\n' || c = '\r' || c = '\x0b' || c = '\x0c'

/-- Value of a string of decimal digits (Python `int`). -/
def digitsToNat (l : List Char) : Nat := l.foldl (fun a c => a * 10 + (c.toNat - 48)) 0

/-- Decimal digits of a number (Python `str` of an `int`), no leading zeros. -/
def natToDigits (n : Nat) : List Char := Nat.toDigits 10 n

/-- Substring containment, the model of Python's `in` on strings. -/
def hasSub (pat : List Char) : List Char → Bool
  | [] => pat.isPrefixOf ([] : List Char)
  | c :: t => pat.isPrefixOf (c :: t) || hasSub pat t

/-- Auxiliary loop for `replaceAll`, fuelled by the length of the text. -/
def replaceAllAux (pat rep : List Char) : Nat → List Char → List Char
  | 0, l => l
  | _ + 1, [] => []
  | fuel + 1, c :: t =>
    if pat.isPrefixOf (c :: t) then
      rep ++ replaceAllAux pat rep fuel (List.drop pat.length (c :: t))
    else
      c :: replaceAllAux pat rep fuel t

/-- Python `str.replace`: replace every non-overlapping occurrence, left to right. -/
def replaceAll (pat rep l : List Char) : List Char :=
  if pat.isEmpty then l else replaceAllAux pat rep l.length l

/-- Match a literal at the head of the text, returning the remainder. -/
def matchLit : List Char → List Char → Option (List Char)
  | [], l => some l
  | _ :: _, [] => none
  | p :: ps, c :: t => if c = p then matchLit ps t else none

/-- Ordered alternation of literals (first alternative that matches wins),
returning the matched literal and the remainder. -/
def matchAlts : List (List Char) → List Char → Option (List Char × List Char)
  | [], _ => none
  | a :: rest, l =>
    match matchLit a l with
    | some r => some (a, r)
    | none => matchAlts rest l

/-- Greedy `\s*`: drop leading whitespace, returning the remainder. -/
def skipSpaces : List Char → List Char
  | [] => []
  | c :: t => if isSpaceCh c then skipSpaces t else c :: t

/-- Greedy bounded repetition of a character class with longest-first
backtracking: try runs of length `n, n-1, …`, but no shorter than `lo`,
feeding the captured run and the remainder to the continuation. -/
def matchRepAux {α : Type} (cls : Char → Bool) (lo : Nat)
    (k : List Char → List Char → Option α) (l : List Char) : Nat → Option α
  | 0 => none
  | n + 1 =>
    (if lo ≤ n + 1 && (l.take (n + 1)).length = n + 1 && (l.take (n + 1)).all cls then
      k (l.take (n + 1)) (l.drop (n + 1))
    else none).orElse (fun _ => matchRepAux cls lo k l n)

/-- Greedy `cls+` (one or more) with longest-first backtracking. -/
def matchPlus {α : Type} (cls : Char → Bool)
    (k : List Char → List Char → Option α) (l : List Char) : Option α :=
  matchRepAux cls 1 k l (l.takeWhile cls).length

/-- Greedy `cls{lo,hi}` with longest-first backtracking. -/
def matchRep {α : Type} (cls : Char → Bool) (lo hi : Nat)
    (k : List Char → List Char → Option α) (l : List Char) : Option α :=
  matchRepAux cls lo k l hi

/-- Greedy optional element: try the match first, fall back to skipping it. -/
def matchOpt {α β : Type} (m : List Char → Option (β × List Char))
    (k : Option β → List Char → Option α) (l : List Char) : Option α :=
  match m l with
  | some (b, r) =>
    match k (some b) r with
    | some a => some a
    | none => k none l
  | none => k none l

/-- Leftmost search (`re.search`): try the anchored matcher at every position. -/
def searchFirst {α : Type} (m : List Char → Option α) : List Char → Option α
  | [] => m []
  | c :: t =>
    match m (c :: t) with
    | some a => some a
    | none => searchFirst m t

/-- Auxiliary loop for `subAll`; the matcher returns the replacement and the
remainder of the text after the matched span. -/
def subAllAux (m : List Char → Option (List Char × List Char)) :
    Nat → List Char → List Char
  | 0, l => l
  | _ + 1, [] => []
  | fuel + 1, c :: t =>
    match m (c :: t) with
    | some (rep, rest) => rep ++ subAllAux m fuel rest
    | none => c :: subAllAux m fuel t

/-- `re.sub`: replace every non-overlapping leftmost match, scanning left to
right and never rescanning replacement text (all patterns used match at
least one character). -/
def subAll (m : List Char → Option (List Char × List Char)) (l : List Char) : List Char :=
  subAllAux m l.length l

/-- Remove every ASCII space (Python `text.replace(" ", "")`). -/
def removeSpaces (l : List Char) : List Char := replaceAll [' '] [] l

/-- Proleptic Gregorian calendar date, the model of `datetime.date`. -/
structure Date where
  year : Nat
  month : Nat
  day : Nat
deriving DecidableEq, Repr

/-- Gregorian leap-year rule (`calendar.isleap`). -/
def isLeapYear (y : Nat) : Bool := (y % 4 = 0 && y % 100 ≠ 0) || y % 400 = 0

/-- Number of days of a month (`calendar.monthrange(y, m)[1]`). -/
def daysInMonth (y m : Nat) : Nat :=
  if m = 1 then 31
  else if m = 2 then (if isLeapYear y then 29 else 28)
  else if m = 3 then 31
  else if m = 4 then 30
  else if m = 5 then 31
  else if m = 6 then 30
  else if m = 7 then 31
  else if m = 8 then 31
  else if m = 9 then 30
  else if m = 10 then 31
  else if m = 11 then 30
  else if m = 12 then 31
  else 0

/-- Validity of year/month/day, the success condition of `datetime(y, m, d)`. -/
def dateValid (y m d : Nat) : Bool :=
  1 ≤ y && 1 ≤ m && m ≤ 12 && 1 ≤ d && d ≤ daysInMonth y m

/-- Days in the months strictly before month `m` of year `y`. -/
def daysBeforeMonth (y m : Nat) : Nat :=
  (List.range (m - 1)).foldl (fun a i => a + daysInMonth y (i + 1)) 0

/-- Python `date.toordinal`: day count with `0001-01-01` as day 1. -/
def Date.toOrdinal (d : Date) : Nat :=
  365 * (d.year - 1) + (d.year - 1) / 4 - (d.year - 1) / 100 + (d.year - 1) / 400 +
    daysBeforeMonth d.year d.month + d.day

/-- Python `date.weekday`: Monday = 0, …, Sunday = 6. -/
def Date.weekday (d : Date) : Nat := (d.toOrdinal + 6) % 7

/-- The calendar day after `d`. -/
def nextDate (d : Date) : Date :=
  if d.day < daysInMonth d.year d.month then ⟨d.year, d.month, d.day + 1⟩
  else if d.month < 12 then ⟨d.year, d.month + 1, 1⟩
  else ⟨d.year + 1, 1, 1⟩

/-- The calendar day before `d`. -/
def prevDate (d : Date) : Date :=
  if 1 < d.day then ⟨d.year, d.month, d.day - 1⟩
  else if 1 < d.month then ⟨d.year, d.month - 1, daysInMonth d.year (d.month - 1)⟩
  else ⟨d.year - 1, 12, 31⟩

/-- Add `n` calendar days. -/
def addDaysNat : Date → Nat → Date
  | d, 0 => d
  | d, n + 1 => addDaysNat (nextDate d) n

/-- Subtract `n` calendar days. -/
def subDaysNat : Date → Nat → Date
  | d, 0 => d
  | d, n + 1 => subDaysNat (prevDate d) n

/-- Python `date + timedelta(days = i)` for a possibly negative `i`. -/
def addDaysI (d : Date) (i : Int) : Date :=
  if 0 ≤ i then addDaysNat d i.toNat else subDaysNat d (-i).toNat

/-- The numeral value of a single numeral character
(the `chinese_numbers` table of `NLPParser.__init__`). -/
def chineseNumberVal (c : Char) : Option Nat :=
  if c = '零' then some 0
  else if c = '一' then some 1
  else if c = '壹' then some 1
  else if c = '二' then some 2
  else if c = '两' then some 2
  else if c = '三' then some 3
  else if c = '四' then some 4
  else if c = '五' then some 5
  else if c = '六' then some 6
  else if c = '七' then some 7
  else if c = '八' then some 8
  else if c = '九' then some 9
  else if c = '十' then some 10
  else if c = '拾' then some 10
  else none

/-- Python `self.chinese_numbers.get(s, 0)`: the table's keys are single
characters, so any other string falls back to 0. -/
def chineseMapGet : List Char → Nat
  | [c] => (chineseNumberVal c).getD 0
  | _ => 0

/-- Transcription of `NLPParser.chinese_to_number` (src/nlp_parser.py). -/
def chinese_to_number (cn : List Char) : Nat :=
  if cn.isEmpty then 0
  else if cn.all isDigitCh then digitsToNat cn
  else if cn = ['二', '十'] then 20
  else if cn = ['三', '十'] then 30
  else if cn = ['十'] then 10
  else if (['二', '十'] : List Char).isPrefixOf cn then 20 + chineseMapGet (cn.drop 2)
  else if cn = ['三', '十', '一'] then 31
  else if (['十'] : List Char).isPrefixOf cn then 10 + chineseMapGet (cn.drop 1)
  else chineseMapGet cn

/-- Single-character `str.replace`: a character-wise map. -/
def replaceChar (k v : Char) (l : List Char) : List Char :=
  l.map fun c => if c = k then v else c

/-- Transcription of `NLPParser._normalize_text`: the eleven single-character
replacements of the traditional→simplified table, applied in source order
(innermost first). -/
def normalize_text (l : List Char) : List Char :=
  replaceChar '週' '周' (replaceChar '號' '号' (replaceChar '鐘' '钟' (replaceChar '钟' '钟'
    (replaceChar '後' '后' (replaceChar '明' '明' (replaceChar '今' '今'
      (replaceChar '點' '点' (replaceChar '幫' '帮' (replaceChar '會' '会'
        (replaceChar '兩' '两' l))))))))))

/-- The `error_correction_map` of `NLPParser.__init__`, in insertion order. -/
def errorCorrectionPairs : List (List Char × List Char) :=
  [(String.toList "回忆", String.toList "会议"),
   (String.toList "会意", String.toList "会议"),
   (String.toList "会义", String.toList "会议"),
   (String.toList "huiyi", String.toList "会议")]

/-- Anchored matcher for `(\d{3,4})\s*(会议|回忆|会|议)` of
`_apply_error_correction`: greedy 4-then-3 digit run, whitespace, then the
first matching meeting word; returns the digit group and the remainder. -/
def compactDateM (l : List Char) : Option (List Char × List Char) :=
  matchRep isDigitCh 3 4 (fun num rest =>
    match matchAlts [String.toList "会议", String.toList "回忆", ['会'], ['议']]
        (skipSpaces rest) with
    | some (_, r) => some (num, r)
    | none => none) l

/-- The `replace_compact_date` callback: split a 3–4 digit run into month and
day, producing `M月D日` when in range and the untouched match otherwise. -/
def compactDateRepl (whole num : List Char) : List Char :=
  let mkMD (ms ds : List Char) : List Char :=
    let m := digitsToNat ms
    let d := digitsToNat ds
    if 1 ≤ m && m ≤ 12 && 1 ≤ d && d ≤ 31 then
      natToDigits m ++ '月' :: (natToDigits d ++ ['日'])
    else whole
  if num.length = 3 && ('1' ≤ num.headD '0' && num.headD '0' ≤ '9') then
    mkMD (num.take 1) (num.drop 1)
  else if num.length = 4 then
    if num.headD '0' = '0' then mkMD ((num.drop 1).take 1) (num.drop 2)
    else mkMD (num.take 2) (num.drop 2)
  else whole

/-- Transcription of `NLPParser._apply_error_correction`: the homophone
replacement table followed by the compact numeric-date rewrite. -/
def apply_error_correction (l : List Char) : List Char :=
  let t := errorCorrectionPairs.foldl (fun acc pr => replaceAll pr.1 pr.2 acc) l
  subAll (fun s =>
    match compactDateM s with
    | some (num, rest) =>
      some (compactDateRepl (s.take (s.length - rest.length)) num, rest)
    | none => none) t

/-- The character class `[零一二三四五六七八九十壹拾]` (no `两`). -/
def cnNumClass (c : Char) : Bool :=
  c = '零' || c = '一' || c = '二' || c = '三' || c = '四' || c = '五' || c = '六' ||
  c = '七' || c = '八' || c = '九' || c = '十' || c = '壹' || c = '拾'

/-- The character class `[一二三四五六七八九]`. -/
def cnUnitClass (c : Char) : Bool :=
  c = '一' || c = '二' || c = '三' || c = '四' || c = '五' || c = '六' ||
  c = '七' || c = '八' || c = '九'

/-- The character class `[零一二两三四五六七八九十壹拾]` (with `两`). -/
def cnNumLiangClass (c : Char) : Bool :=
  c = '零' || c = '一' || c = '二' || c = '两' || c = '三' || c = '四' ||
  c = '五' || c = '六' || c = '七' || c = '八' || c = '九' || c = '十' ||
  c = '壹' || c = '拾'

/-- The character class `[0-9零一二两三四五六七八九十壹拾]` (with `两`). -/
def cnMixedClass (c : Char) : Bool :=
  isDigitCh c || cnNumLiangClass c

/-- Anchored matcher for the day-number pattern
`(二十[一二三四五六七八九]?|三十[一]?|[零一二三四五六七八九十壹拾]+)\s*(号|日)`
of `_normalize_chinese_numbers_in_date`, with the alternatives tried in
source order; returns the numeral group and the remainder. -/
def cnDayNumM (l : List Char) : Option (List Char × List Char) :=
  let tail := fun (g1 : List Char) (r : List Char) =>
    match matchAlts [['号'], ['日']] (skipSpaces r) with
    | some (_, r2) => some (g1, r2)
    | none => none
  let alt1 :=
    match matchLit ['二', '十'] l with
    | some r =>
      matchOpt (fun s =>
          match s with
          | c :: t => if cnUnitClass c then some (c, t) else none
          | [] => none)
        (fun u r2 =>
          match u with
          | some c => tail ['二', '十', c] r2
          | none => tail ['二', '十'] r2) r
    | none => none
  let alt2 := fun (_ : Unit) =>
    match matchLit ['三', '十'] l with
    | some r =>
      matchOpt (fun s =>
          match s with
          | '一' :: t => some ('一', t)
          | _ => none)
        (fun u r2 =>
          match u with
          | some c => tail ['三', '十', c] r2
          | none => tail ['三', '十'] r2) r
    | none => none
  let alt3 := fun (_ : Unit) => matchPlus cnNumClass tail l
  (alt1.orElse alt2).orElse alt3

/-- Anchored matcher for the month pattern
`(十一|十二|[零一二三四五六七八九十壹拾]+)月`; returns the numeral group and
the remainder. -/
def cnMonthNumM (l : List Char) : Option (List Char × List Char) :=
  let tail := fun (g1 : List Char) (r : List Char) =>
    match matchLit ['月'] r with
    | some r2 => some (g1, r2)
    | none => none
  let alt1 :=
    match matchLit ['十', '一'] l with
    | some r => tail ['十', '一'] r
    | none => none
  let alt2 := fun (_ : Unit) =>
    match matchLit ['十', '二'] l with
    | some r => tail ['十', '二'] r
    | none => none
  let alt3 := fun (_ : Unit) => matchPlus cnNumClass tail l
  (alt1.orElse alt2).orElse alt3

/-- Transcription of `NLPParser._normalize_chinese_numbers_in_date`: rewrite
numeral day-of-month expressions to `N日` (when the value is positive) and
numeral months to `M月` (when 1–12), leaving failed conversions untouched. -/
def normalize_chinese_numbers_in_date (l : List Char) : List Char :=
  let t := subAll (fun s =>
    match cnDayNumM s with
    | some (g1, rest) =>
      let whole := s.take (s.length - rest.length)
      let n := chinese_to_number g1
      some ((if n > 0 then natToDigits n ++ ['日'] else whole), rest)
    | none => none) l
  subAll (fun s =>
    match cnMonthNumM s with
    | some (g1, rest) =>
      let whole := s.take (s.length - rest.length)
      let m := chinese_to_number g1
      some ((if 1 ≤ m && m ≤ 12 then natToDigits m ++ ['月'] else whole), rest)
    | none => none) t

/-- The `month_map` of `NLPParser.__init__`, in insertion order. -/
def monthMapPairs : List (List Char × Nat) :=
  [(String.toList "一月", 1), (String.toList "二月", 2), (String.toList "三月", 3),
   (String.toList "四月", 4), (String.toList "五月", 5), (String.toList "六月", 6),
   (String.toList "七月", 7), (String.toList "八月", 8), (String.toList "九月", 9),
   (String.toList "十月", 10), (String.toList "十一月", 11), (String.toList "十二月", 12),
   (String.toList "正月", 1), (String.toList "腊月", 12),
   (String.toList "1月", 1), (String.toList "2月", 2), (String.toList "3月", 3),
   (String.toList "4月", 4), (String.toList "5月", 5), (String.toList "6月", 6),
   (String.toList "7月", 7), (String.toList "8月", 8), (String.toList "9月", 9),
   (String.toList "10月", 10), (String.toList "11月", 11), (String.toList "12月", 12)]

/-- Dictionary lookup `self.month_map.get(name)`. -/
def monthMapGet (name : List Char) : Option Nat := monthMapPairs.lookup name

/-- The ordered month-name alternation of the `chinese_month_pattern` of
`_preprocess_date_patterns`. -/
def monthNameAlts : List (List Char) :=
  [String.toList "正月", String.toList "一月", String.toList "二月", String.toList "三月",
   String.toList "四月", String.toList "五月", String.toList "六月", String.toList "七月",
   String.toList "八月", String.toList "九月", String.toList "十月", String.toList "十一月",
   String.toList "十二月"]

/-- Anchored matcher for
`(正月|…|十二月)([0-9零一二两三四五六七八九十壹拾]+)[日号]`; returns the month
name, the day group and the remainder. -/
def cnMonthDayM (l : List Char) : Option ((List Char × List Char) × List Char) :=
  match matchAlts monthNameAlts l with
  | some (name, r) =>
    matchPlus cnMixedClass (fun ds r2 =>
      match r2 with
      | c :: r3 => if c = '日' || c = '号' then some ((name, ds), r3) else none
      | [] => none) r
  | none => none

/-- Anchored matcher for the month group `(1[0-2]|0?[1-9])` (ordered
alternation, greedy optional zero); returns the digit group and the
remainder. -/
def monthNumM (l : List Char) : Option (List Char × List Char) :=
  let alt1 :=
    match l with
    | '1' :: c :: r => if '0' ≤ c && c ≤ '2' then some (['1', c], r) else none
    | _ => none
  let alt2 := fun (_ : Unit) =>
    match l with
    | '0' :: c :: r =>
      if '1' ≤ c && c ≤ '9' then some (['0', c], r)
      else none
    | c :: r =>
      if '1' ≤ c && c ≤ '9' then some ([c], r)
      else none
    | [] => none
  alt1.orElse alt2

/-- Anchored matcher for the dotted date `(1[0-2]|0?[1-9])[·\.]([0-9]{1,2})`;
returns month and day groups and the remainder. -/
def dottedDateM (l : List Char) : Option ((List Char × List Char) × List Char) :=
  match monthNumM l with
  | some (g1, r) =>
    match r with
    | c :: r2 =>
      if c = '·' || c = '.' then
        matchRep isDigitCh 1 2 (fun ds r3 => some ((g1, ds), r3)) r2
      else none
    | [] => none
  | none => none

/-- Transcription of `NLPParser._preprocess_date_patterns`: remove spaces,
rewrite a Chinese month-name date (all occurrences take the values of the
first match), then rewrite a dotted numeric date the same way. -/
def preprocess_date_patterns (l0 : List Char) : List Char :=
  let t0 := removeSpaces l0
  let t1 :=
    match searchFirst cnMonthDayM t0 with
    | some ((name, ds), _) =>
      match monthMapGet name with
      | some month =>
        let day := chinese_to_number ds
        if day ≠ 0 && 1 ≤ day && day ≤ 31 then
          subAll (fun s =>
            match cnMonthDayM s with
            | some (_, rest) =>
              some (natToDigits month ++ '月' :: (natToDigits day ++ ['日']), rest)
            | none => none) t0
        else t0
      | none => t0
    | none => t0
  match searchFirst dottedDateM t1 with
  | some ((g1, ds), _) =>
    let month := digitsToNat g1
    let day := digitsToNat ds
    if 1 ≤ day && day ≤ 31 then
      subAll (fun s =>
        match dottedDateM s with
        | some (_, rest) =>
          some (natToDigits month ++ '月' :: (natToDigits day ++ ['日']), rest)
        | none => none) t1
    else t1
  | none => t1

/-- The composition of the four normalisation stages applied by
`NLPParser.parse` before any extraction. -/
def normalizeAll (l : List Char) : List Char :=
  preprocess_date_patterns (normalize_chinese_numbers_in_date
    (apply_error_correction (normalize_text l)))

/-- Transcription of `NLPParser._parse_base_keywords`: substring containment,
checked in source order (note `后天` is checked before `大后天`). -/
def parse_base_keywords (text : List Char) (today : Date) : Option Date :=
  if hasSub (String.toList "今天") text || hasSub (String.toList "今日") text then
    some today
  else if hasSub (String.toList "明天") text || hasSub (String.toList "明日") text then
    some (addDaysI today 1)
  else if hasSub (String.toList "后天") text then
    some (addDaysI today 2)
  else if hasSub (String.toList "大后天") text then
    some (addDaysI today 3)
  else if hasSub (String.toList "昨天") text || hasSub (String.toList "昨日") text then
    some (addDaysI today (-1))
  else if hasSub (String.toList "前天") text then
    some (addDaysI today (-2))
  else
    none

/-- Anchored matcher for `(1[0-2]|0?[1-9])月(\d{1,2})[日号]?`; returns month
and day values and the remainder. -/
def mdLiteralM (l : List Char) : Option ((Nat × Nat) × List Char) :=
  match monthNumM l with
  | some (g1, r) =>
    match r with
    | '月' :: r2 =>
      matchRep isDigitCh 1 2 (fun ds r3 =>
        let r4 := match r3 with
          | c :: t => if c = '日' || c = '号' then t else r3
          | [] => r3
        some ((digitsToNat g1, digitsToNat ds), r4)) r2
    | _ => none
  | none => none

/-- Anchored matcher for `(1[0-2]|0?[1-9])[/\-\.]([0-9]{1,2})`; returns month
and day values and the remainder. -/
def mdSepM (l : List Char) : Option ((Nat × Nat) × List Char) :=
  match monthNumM l with
  | some (g1, r) =>
    match r with
    | c :: r2 =>
      if c = '/' || c = '-' || c = '.' then
        matchRep isDigitCh 1 2 (fun ds r3 => some ((digitsToNat g1, digitsToNat ds), r3)) r2
      else none
    | [] => none
  | none => none

/-- The year roll-forward of `_parse_specific_date`: a month/day literal that
already passed this year means next year; invalid dates reject the
candidate (`except ValueError: continue`). -/
def specificFromMonthDay (today : Date) (month day : Nat) : Option Date :=
  let year := if today.month > month || (today.month = month && today.day > day) then
    today.year + 1 else today.year
  if dateValid year month day then some ⟨year, month, day⟩ else none

/-- Anchored matcher for the day-only pattern `(\d{1,2})[日号]?`; returns the
day value and the remainder. -/
def dayOnlyM (l : List Char) : Option (Nat × List Char) :=
  matchRep isDigitCh 1 2 (fun ds r =>
    let r2 := match r with
      | c :: t => if c = '日' || c = '号' then t else r
      | [] => r
    some (digitsToNat ds, r2)) l

/-- The day-only branch of `_parse_specific_date`: assume the reference
month, and if the day has already passed roll one month forward (with year
rollover at 12); an invalid date yields `None`. -/
def specificFromDayOnly (today : Date) (day : Nat) : Option Date :=
  let ym : Nat × Nat :=
    if day < today.day then
      (if today.month + 1 > 12 then (today.year + 1, 1) else (today.year, today.month + 1))
    else (today.year, today.month)
  if dateValid ym.1 ym.2 day then some ⟨ym.1, ym.2, day⟩ else none

/-- Transcription of `NLPParser._parse_specific_date`: the two month/day
patterns in order (an invalid candidate falls through to the next pattern),
then the day-only pattern. -/
def parse_specific_date (text : List Char) (today : Date) : Option Date :=
  let dayOnly := fun (_ : Unit) =>
    match searchFirst dayOnlyM text with
    | some (day, _) => specificFromDayOnly today day
    | none => none
  match searchFirst mdLiteralM text with
  | some ((m, d), _) =>
    match specificFromMonthDay today m d with
    | some dt => some dt
    | none =>
      match searchFirst mdSepM text with
      | some ((m2, d2), _) =>
        match specificFromMonthDay today m2 d2 with
        | some dt => some dt
        | none => dayOnly ()
      | none => dayOnly ()
  | none =>
    match searchFirst mdSepM text with
    | some ((m2, d2), _) =>
      match specificFromMonthDay today m2 d2 with
      | some dt => some dt
      | none => dayOnly ()
    | none => dayOnly ()

/-- The character class `[一二三四五六日天]` of the relative-weekday pattern. -/
def weekdayCnChar (c : Char) : Bool :=
  c = '一' || c = '二' || c = '三' || c = '四' || c = '五' || c = '六' || c = '日' || c = '天'

/-- The `weekday_map` of `NLPParser.__init__` (Monday = 0 … Sunday = 6). -/
def weekdayMapGet (c : Char) : Option Nat :=
  if c = '一' || c = '1' then some 0
  else if c = '二' || c = '2' then some 1
  else if c = '三' || c = '3' then some 2
  else if c = '四' || c = '4' then some 3
  else if c = '五' || c = '5' then some 4
  else if c = '六' || c = '6' then some 5
  else if c = '日' || c = '天' || c = '7' || c = '0' then some 6
  else none

/-- Anchored matcher for `(下下|下|本|这|上)?\s*个?\s*(周|星期)([一二三四五六日天])`;
returns the (possibly empty) prefix group, the weekday character and the
remainder. -/
def relWeekdayM (l : List Char) : Option ((List Char × Char) × List Char) :=
  matchOpt (fun s => matchAlts [String.toList "下下", ['下'], ['本'], ['这'], ['上']] s)
    (fun pfx r =>
      matchOpt (fun s =>
          match s with
          | '个' :: t => some ((), t)
          | _ => none)
        (fun _ r2 =>
          match matchAlts [['周'], String.toList "星期"] (skipSpaces r2) with
          | some (_, r3) =>
            match r3 with
            | c :: r4 => if weekdayCnChar c then some ((pfx.getD [], c), r4) else none
            | [] => none
          | none => none)
        (skipSpaces r)) l

/-- Transcription of `NLPParser._parse_relative_weekday`: offset arithmetic
for the prefixes 下 / 下下 / 本 / 这 / 上 / none (Python `%` is non-negative,
matching `Int.emod`). -/
def parse_relative_weekday (text : List Char) (today : Date) : Option Date :=
  match searchFirst relWeekdayM text with
  | none => none
  | some ((pfx, wc), _) =>
    match weekdayMapGet wc with
    | none => none
    | some target =>
      let w : Int := today.weekday
      let t : Int := target
      let days_ahead : Int :=
        if pfx = ['下'] then
          let dm := (7 - w) % 7
          (if dm = 0 then 7 else dm) + t
        else if pfx = String.toList "下下" then
          let dm := (7 - w) % 7
          (if dm = 0 then 7 else dm) + 7 + t
        else if pfx = ['本'] || pfx = ['这'] then
          let d := t - w
          if d ≤ 0 then d + 7 else d
        else if pfx = ['上'] then
          t - w - 7
        else
          let d := (t - w) % 7
          if d = 0 then 7 else d
      some (addDaysI today days_ahead)

/-- Anchored matcher for `下+\s*周(?![一二三四五六日天])` (negative lookahead);
returns the count of 下 and the remainder. -/
def nextWeekLookM (l : List Char) : Option (Nat × List Char) :=
  matchPlus (fun c => c = '下') (fun run r =>
    match skipSpaces r with
    | '周' :: r3 =>
      match r3 with
      | c :: _ => if weekdayCnChar c then none else some (run.length, r3)
      | [] => some (run.length, r3)
    | _ => none) l

/-- Anchored matcher for `(下+)\s*周` (no lookahead); returns the count of 下
and the remainder. -/
def nextWeekM (l : List Char) : Option (Nat × List Char) :=
  matchPlus (fun c => c = '下') (fun run r =>
    match skipSpaces r with
    | '周' :: r3 => some (run.length, r3)
    | _ => none) l

/-- Anchored matcher for `(下+)\s*个?\s*月(?:\s*(\d{1,2})[日号])?`; returns the
count of 下, the optional day value and the remainder. -/
def nextMonthM (l : List Char) : Option ((Nat × Option Nat) × List Char) :=
  matchPlus (fun c => c = '下') (fun run r =>
    matchOpt (fun s =>
        match s with
        | '个' :: t => some ((), t)
        | _ => none)
      (fun _ r2 =>
        match skipSpaces r2 with
        | '月' :: r4 =>
          let withDay :=
            matchRep isDigitCh 1 2 (fun ds r6 =>
              match r6 with
              | c :: r7 => if c = '日' || c = '号' then some (digitsToNat ds, r7) else none
              | [] => none) (skipSpaces r4)
          match withDay with
          | some (d, r7) => some ((run.length, some d), r7)
          | none => some ((run.length, none), r4)
        | _ => none)
      (skipSpaces r)) l

/-- The `while target_month > 12` loop of `_parse_week_month_date`. -/
def normYearMonth (y m : Nat) : Nat × Nat :=
  if m > 12 then normYearMonth (y + 1) (m - 12) else (y, m)
termination_by m
decreasing_by omega

/-- Transcription of `NLPParser._parse_week_month_date`: `下周` (without a
weekday) goes to the Monday `weeks` weeks ahead; `下月`/`下个月` goes to the
given day (clamped into the target month on `ValueError`) or day 1. -/
def parse_week_month_date (text0 : List Char) (today : Date) : Option Date :=
  let text := removeSpaces text0
  let monthBranch := fun (_ : Unit) =>
    match searchFirst nextMonthM text with
    | some ((months_ahead, dayOpt), _) =>
      let ym := normYearMonth today.year (today.month + months_ahead)
      match dayOpt with
      | some day =>
        if dateValid ym.1 ym.2 day then some ⟨ym.1, ym.2, day⟩
        else some ⟨ym.1, ym.2, daysInMonth ym.1 ym.2⟩
      | none => some ⟨ym.1, ym.2, 1⟩
    | none => none
  match searchFirst nextWeekLookM text with
  | some _ =>
    match searchFirst nextWeekM text with
    | some (weeks_ahead, _) =>
      let dm0 := (7 - today.weekday) % 7
      let dm := if dm0 = 0 then 7 else dm0
      some (addDaysI today (dm + (weeks_ahead - 1) * 7 : Nat))
    | none => monthBranch ()
  | none => monthBranch ()

/-- Anchored matcher for `(\d+|[零一二两三四五六七八九十壹拾]+)` followed by
whitespace, an optional `个` (month unit only), the unit character and an
optional `后`; returns the numeral group and the remainder. -/
def nUnitsM (unit : Char) (hasGe : Bool) (l : List Char) : Option (List Char × List Char) :=
  let cont := fun (g : List Char) (r : List Char) =>
    let afterGe := fun (r2 : List Char) =>
      match skipSpaces r2 with
      | c :: r3 =>
        if c = unit then
          match skipSpaces r3 with
          | '后' :: r4 => some (g, r4)
          | r4 => some (g, r4)
        else none
      | [] => none
    if hasGe then
      matchOpt (fun s =>
          match s with
          | '个' :: t => some ((), t)
          | _ => none)
        (fun _ r2 => afterGe r2) (skipSpaces r)
    else afterGe (skipSpaces r)
  (matchPlus isDigitCh cont l).orElse (fun _ => matchPlus cnNumLiangClass cont l)

/-- The month-arithmetic branch of `_parse_day_relative_date`: calendar-month
addition with the day clamped to the target month's length. -/
def monthsLaterDate (today : Date) (n : Nat) : Date :=
  let year := today.year + (today.month + n - 1) / 12
  let month := (today.month + n - 1) % 12 + 1
  let last := daysInMonth year month
  ⟨year, month, min today.day last⟩

/-- Transcription of `NLPParser._parse_day_relative_date`: the three unit
patterns in order (days, weeks, months); a numeral converting to 0 falls
through to the next pattern. -/
def parse_day_relative_date (text0 : List Char) (today : Date) : Option Date :=
  let text := removeSpaces text0
  let step := fun (mres : Option (List Char × List Char)) (apply : Nat → Date)
      (next : Option Date) =>
    match mres with
    | some (g, _) =>
      let n := chinese_to_number g
      if n = 0 then next else some (apply n)
    | none => next
  step (searchFirst (nUnitsM '天' false) text) (fun n => addDaysI today n)
    (step (searchFirst (nUnitsM '周' false) text) (fun n => addDaysI today (7 * n))
      (step (searchFirst (nUnitsM '月' true) text) (fun n => monthsLaterDate today n)
        none))

/-- Transcription of `NLPParser.extract_date`: remove spaces, then try the
five grammars in priority order, falling back to the reference date. -/
def extract_date (text0 : List Char) (today : Date) : Date :=
  let text := removeSpaces text0
  match parse_base_keywords text today with
  | some d => d
  | none =>
    match parse_specific_date text today with
    | some d => d
    | none =>
      match parse_relative_weekday text today with
      | some d => d
      | none =>
        match parse_week_month_date text today with
        | some d => d
        | none =>
          match parse_day_relative_date text today with
          | some d => d
          | none => today

/-- A raised Python exception: `time(...)` out of range raises `ValueError`,
`m.group(4)` on a three-group pattern raises an index/group error. -/
inductive PyErr where
  | valueError
  | indexError
deriving DecidableEq, Repr

/-- Time of day, the model of `datetime.time`. -/
structure Tod where
  hour : Nat
  minute : Nat
deriving DecidableEq, Repr

/-- Python `time(h, m)`: validates the ranges, raising `ValueError`. -/
def mkTod (h m : Nat) : Except PyErr Tod :=
  if h ≤ 23 && m ≤ 59 then .ok ⟨h, m⟩ else .error .valueError

/-- Construction of a `(time(sh, sm), time(eh, em))` pair, the start
validated first. -/
def mkTodPair (sh sm eh em : Nat) : Except PyErr (Tod × Tod) :=
  match mkTod sh sm with
  | .error e => .error e
  | .ok s =>
    match mkTod eh em with
    | .error e => .error e
    | .ok t => .ok (s, t)

/-- The day-period alternation `(早上|上午|中午|下午|晚上)`. -/
def periodAlts : List (List Char) :=
  [String.toList "早上", String.toList "上午", String.toList "中午",
   String.toList "下午", String.toList "晚上"]

/-- The character class `[0-9零一二两三四五六七八九十]` of the time patterns. -/
def cnTimeClass (c : Char) : Bool :=
  isDigitCh c || c = '零' || c = '一' || c = '二' || c = '两' || c = '三' || c = '四' ||
  c = '五' || c = '六' || c = '七' || c = '八' || c = '九' || c = '十'

/-- The minutes group `(半|[0-9零一二两三四五六七八九十]+分)` of the
`extract_time` patterns (`半` is the first alternative there); the captured
group includes the `分`. -/
def minuteGroupM (l : List Char) : Option (List Char × List Char) :=
  match l with
  | '半' :: t => some (['半'], t)
  | _ =>
    matchPlus cnTimeClass (fun run r =>
      match r with
      | '分' :: r2 => some (run ++ ['分'], r2)
      | _ => none) l

/-- The group values captured by the Chinese time-range pattern of
`extract_time` (g2/g4 hour numerals, g3/g5 optional minutes groups). -/
structure CnRange where
  period : Option (List Char)
  g2 : List Char
  g3 : Option (List Char)
  g4 : List Char
  g5 : Option (List Char)

/-- Anchored matcher for the first range pattern of `extract_time`:
`(早上|上午|中午|下午|晚上)?\s*([0-9零一二两三四五六七八九十]+)\s*点(半|…分)?\s*(?:到|至|-|~)\s*([0-9零一二两三四五六七八九十]+)\s*点(半|…分)?`. -/
def cnRangeM (l : List Char) : Option (CnRange × List Char) :=
  matchOpt (fun s => matchAlts periodAlts s) (fun per r0 =>
    matchPlus cnTimeClass (fun g2 r1 =>
      match skipSpaces r1 with
      | '点' :: r2 =>
        matchOpt minuteGroupM (fun g3 r3 =>
          match matchAlts [['到'], ['至'], ['-'], ['~']] (skipSpaces r3) with
          | some (_, r4) =>
            matchPlus cnTimeClass (fun g4 r5 =>
              match skipSpaces r5 with
              | '点' :: r6 =>
                matchOpt minuteGroupM (fun g5 r7 => some (⟨per, g2, g3, g4, g5⟩, r7)) r6
              | _ => none) (skipSpaces r4)
          | none => none) r2
      | _ => none) (skipSpaces r0)) l

/-- Anchored matcher for the second range pattern of `extract_time`:
`([0-9]{1,2}):([0-9]{2})\s*(?:到|至|-|~)\s*([0-9]{1,2}):([0-9]{2})`;
returns the four numeric groups. -/
def digitalRangeM (l : List Char) : Option ((Nat × Nat × Nat × Nat) × List Char) :=
  matchRep isDigitCh 1 2 (fun h1 r =>
    match r with
    | ':' :: r2 =>
      matchRep isDigitCh 2 2 (fun m1 r3 =>
        match matchAlts [['到'], ['至'], ['-'], ['~']] (skipSpaces r3) with
        | some (_, r4) =>
          matchRep isDigitCh 1 2 (fun h2 r5 =>
            match r5 with
            | ':' :: r6 =>
              matchRep isDigitCh 2 2 (fun m2 r7 =>
                some ((digitsToNat h1, digitsToNat m1, digitsToNat h2, digitsToNat m2), r7)) r6
            | _ => none) (skipSpaces r4)
        | none => none) r2
    | _ => none) l

/-- Anchored matcher for the third range pattern of `extract_time`:
`([0-9]{1,2}):([0-9]{2})\s*(?:到|至|-|~)\s*([0-9]{1,2})\s*点?` — it has only
three groups, so a match makes `m.group(4)` raise. -/
def mixedRangeM (l : List Char) : Option (Unit × List Char) :=
  matchRep isDigitCh 1 2 (fun _ r =>
    match r with
    | ':' :: r2 =>
      matchRep isDigitCh 2 2 (fun _ r3 =>
        match matchAlts [['到'], ['至'], ['-'], ['~']] (skipSpaces r3) with
        | some (_, r4) =>
          matchRep isDigitCh 1 2 (fun _ r5 =>
            let r6 := skipSpaces r5
            match r6 with
            | '点' :: r7 => some ((), r7)
            | _ => some ((), r6)) (skipSpaces r4)
        | none => none) r2
    | _ => none) l

/-- The group values captured by the Chinese single-time pattern. -/
structure CnSingle where
  period : Option (List Char)
  g2 : List Char
  g3 : Option (List Char)

/-- Anchored matcher for the first single-time pattern of `extract_time`:
`(早上|上午|中午|下午|晚上)?\s*([0-9零一二两三四五六七八九十]+)\s*点(半|…分)?`. -/
def cnSingleM (l : List Char) : Option (CnSingle × List Char) :=
  matchOpt (fun s => matchAlts periodAlts s) (fun per r0 =>
    matchPlus cnTimeClass (fun g2 r1 =>
      match skipSpaces r1 with
      | '点' :: r2 =>
        matchOpt minuteGroupM (fun g3 r3 => some (⟨per, g2, g3⟩, r3)) r2
      | _ => none) (skipSpaces r0)) l

/-- Anchored matcher for the second single-time pattern of `extract_time`:
`([0-9]{1,2}):([0-9]{2})`. -/
def digitalSingleM (l : List Char) : Option ((Nat × Nat) × List Char) :=
  matchRep isDigitCh 1 2 (fun h r =>
    match r with
    | ':' :: r2 =>
      matchRep isDigitCh 2 2 (fun m r3 => some ((digitsToNat h, digitsToNat m), r3)) r2
    | _ => none) l

/-- Value of an optional minutes group: `半` is 30, otherwise the numeral
with the `分` removed, defaulting to 0 for an absent group. -/
def minuteVal : Option (List Char) → Nat
  | some g => if g = ['半'] then 30 else chinese_to_number (replaceAll ['分'] [] g)
  | none => 0

/-- The day-period adjustment of the range branch of `extract_time`:
afternoon/evening add 12 to each hour below 12; noon (with a start below
12) adds 12 to both hours unconditionally; morning with a literal start of
12 maps the pair to (0, 1). -/
def adjustRangeHours (period : Option (List Char)) (sh eh : Nat) : Nat × Nat :=
  match period with
  | some p =>
    if p = String.toList "下午" || p = String.toList "晚上" then
      ((if sh < 12 then sh + 12 else sh), (if eh < 12 then eh + 12 else eh))
    else if p = String.toList "中午" then
      (if sh < 12 then (sh + 12, eh + 12) else (sh, eh))
    else if p = String.toList "早上" || p = String.toList "上午" then
      (if sh = 12 then (0, 1) else (sh, eh))
    else (sh, eh)
  | none => (sh, eh)

/-- The day-period adjustment of the single-time branch of `extract_time`. -/
def adjustSingleHour (period : Option (List Char)) (h : Nat) : Nat :=
  match period with
  | some p =>
    if p = String.toList "下午" || p = String.toList "晚上" then
      (if h < 12 then h + 12 else h)
    else if p = String.toList "中午" then
      (if h < 12 then h + 12 else h)
    else if p = String.toList "早上" || p = String.toList "上午" then
      (if h = 12 then 0 else h)
    else h
  | none => h

/-- Transcription of `NLPParser.extract_time`: the three range patterns in
order, then the two single-time patterns; a mixed-pattern match raises on
`m.group(4)`; every returned pair goes through `time(...)` validation. -/
def extract_time (text : List Char) : Except PyErr (Option (Tod × Tod)) :=
  match searchFirst cnRangeM text with
  | some (rm, _) =>
    let he := adjustRangeHours rm.period (chinese_to_number rm.g2) (chinese_to_number rm.g4)
    Except.map some (mkTodPair he.1 (minuteVal rm.g3) he.2 (minuteVal rm.g5))
  | none =>
    match searchFirst digitalRangeM text with
    | some (q, _) => Except.map some (mkTodPair q.1 q.2.1 q.2.2.1 q.2.2.2)
    | none =>
      match searchFirst mixedRangeM text with
      | some _ => .error .indexError
      | none =>
        match searchFirst cnSingleM text with
        | some (sg, _) =>
          let h := adjustSingleHour sg.period (chinese_to_number sg.g2)
          Except.map some (mkTodPair h (minuteVal sg.g3) h (minuteVal sg.g3))
        | none =>
          match searchFirst digitalSingleM text with
          | some (p, _) => Except.map some (mkTodPair p.1 p.2 p.1 p.2)
          | none => .ok none

/-- The minutes group of the title-stripping time pattern of
`extract_title`, whose alternation order is `([0-9零一二两三四五六七八九十]+分|半)`. -/
def minuteGroupTitleM (l : List Char) : Option (List Char × List Char) :=
  match matchPlus cnTimeClass (fun run r =>
      match r with
      | '分' :: r2 => some (run ++ ['分'], r2)
      | _ => none) l with
  | some x => some x
  | none =>
    match l with
    | '半' :: t => some (['半'], t)
    | _ => none

/-- Anchored matcher for the first stripping pattern of `extract_title`:
`(早上|上午|中午|下午|晚上)?\s*[0-9零一二两三四五六七八九十]+点([0-9零一二两三四五六七八九十]+分|半)?`
(no whitespace before `点` in this pattern); returns the remainder. -/
def titleTimeM (l : List Char) : Option (List Char) :=
  matchOpt (fun s => matchAlts periodAlts s) (fun _ r0 =>
    matchPlus cnTimeClass (fun _ r1 =>
      match r1 with
      | '点' :: r2 => matchOpt minuteGroupTitleM (fun _ r3 => some r3) r2
      | _ => none) (skipSpaces r0)) l

/-- Anchored matcher for the second stripping pattern of `extract_title`:
`[0-9]{1,2}:[0-9]{2}`; returns the remainder. -/
def titleHMM (l : List Char) : Option (List Char) :=
  matchRep isDigitCh 1 2 (fun _ r =>
    match r with
    | ':' :: r2 => matchRep isDigitCh 2 2 (fun _ r3 => some r3) r2
    | _ => none) l

/-- The stopword alternation of the third stripping pattern of
`extract_title`, in source order. -/
def titleStopAlts : List (List Char) :=
  [String.toList "今天", String.toList "明天", String.toList "后天", String.toList "大后天",
   String.toList "昨天", String.toList "前天", String.toList "上周", String.toList "下周",
   String.toList "本周", String.toList "这周", String.toList "下下", ['下'], ['上'], ['本'],
   ['这'], ['个'], ['周'], String.toList "星期", ['月'], ['号'], ['日']]

/-- Transcription of `NLPParser.extract_title`: strip the time patterns, the
digit `HH:MM` tokens, the stopwords and the month/day literals, remove the
filler words, strip whitespace, and fall back to the fixed title, truncating
to 20 characters. -/
def extract_title (text : List Char) : List Char :=
  let t1 := subAll (fun s => (titleTimeM s).map (fun r => (([] : List Char), r))) text
  let t2 := subAll (fun s => (titleHMM s).map (fun r => (([] : List Char), r))) t1
  let t3 := subAll (fun s => (matchAlts titleStopAlts s).map (fun p => (([] : List Char), p.2))) t2
  let t4 := subAll (fun s => (mdLiteralM s).map (fun p => (([] : List Char), p.2))) t3
  let t5 := replaceAll (String.toList "至") []
    (replaceAll (String.toList "到") []
      (replaceAll (String.toList "请安排") []
        (replaceAll (String.toList "在") []
          (replaceAll (String.toList "是") [] t4))))
  let t6 := ((t5.dropWhile isSpaceCh).reverse.dropWhile isSpaceCh).reverse
  if t6.isEmpty then String.toList "日程安排" else t6.take 20

/-- The result of `NLPParser.parse`: the success record (title and start/end
instants, in minutes from the ordinal-day epoch) or the fixed failure. -/
inductive ParseResult where
  | success (title : List Char) (start_time end_time : Nat)
  | failure (error : List Char)
deriving DecidableEq, Repr

/-- Python `datetime.combine(date, t)`, as minutes from the ordinal epoch. -/
def combine (d : Date) (t : Tod) : Nat := d.toOrdinal * 1440 + (t.hour * 60 + t.minute)

/-- The fixed user-facing failure message of `NLPParser.parse`. -/
def failMsg : List Char :=
  String.toList "抱歉,我没有听清楚时间。请说具体几点,比如下午2点。"

/-- Transcription of `NLPParser.parse` for a given reference date `today`
(the ambient `datetime.today()`): normalize, resolve the date, resolve the
time (failing with the fixed message when absent), widen a degenerate pair
by one hour — recombining the widened end **time** with the original date,
exactly as `datetime.combine(date, end_time)` does after
`dt_end.time()` — and extract the title. -/
def parse (today : Date) (text0 : List Char) : Except PyErr ParseResult :=
  let text := normalizeAll text0
  let date := extract_date text today
  match extract_time text with
  | .error e => .error e
  | .ok none => .ok (.failure failMsg)
  | .ok (some (st, en)) =>
    let en' := if st = en then
        (let total := st.hour * 60 + st.minute + 60
         (⟨(total / 60) % 24, total % 60⟩ : Tod))
      else en
    .ok (.success (extract_title text) (combine date st) (combine date en'))

/-- One reported conflict of `CalendarBot.check_time_conflict`: the
(normalized) existing interval and the overlap bounds, in minutes. -/
structure Conflict where
  estart : Int
  eend : Int
  ostart : Int
  oend : Int
deriving DecidableEq, Repr

/-- `timedelta(days = 1)` in minutes. -/
def oneDay : Int := 1440

/-- Cross-midnight normalization of the proposed interval
(src/calendar_bot.py line 338): `if check_end < check_start: check_end +=
timedelta(days=1)` — a strict comparison. -/
def normalizeProposedEnd (check_start check_end : Int) : Int :=
  if check_end < check_start then check_end + oneDay else check_end

/-- Cross-midnight normalization of a scanned existing event
(src/calendar_bot.py line 411): `if event_end <= event_start: event_end +=
timedelta(days=1)` — a non-strict comparison. -/
def normalizeExistingEnd (event_start event_end : Int) : Int :=
  if event_end ≤ event_start then event_end + oneDay else event_end

/-- The event loop of `check_time_conflict`: normalize each existing event,
test the half-open overlap, and append the conflict record, setting the
flag. -/
def conflictLoop (check_start check_end : Int) :
    List (Int × Int) → Bool × List Conflict → Bool × List Conflict
  | [], acc => acc
  | (es, ee) :: rest, acc =>
    let ee' := normalizeExistingEnd es ee
    let acc' := if check_start < ee' && check_end > es then
        (true, acc.2 ++ [⟨es, ee', max check_start es, min check_end ee'⟩])
      else acc
    conflictLoop check_start check_end rest acc'

/-- Transcription of the interval logic of `CalendarBot.check_time_conflict`
(src/calendar_bot.py): the proposed interval is normalized, then every
extracted existing interval is scanned in order. -/
def check_time_conflict (start_time end_time : Int) (events : List (Int × Int)) :
    Bool × List Conflict :=
  conflictLoop start_time (normalizeProposedEnd start_time end_time) events (false, [])

/-- The Boolean overlap test applied to one existing interval. -/
def overlapTest (cs ce : Int) (p : Int × Int) : Bool :=
  decide (cs < p.2) && decide (ce > p.1)

/-- The conflict record built for one overlapping existing interval. -/
def mkConflict (cs ce : Int) (p : Int × Int) : Conflict :=
  ⟨p.1, p.2, max cs p.1, min ce p.2⟩

/-- The scan loop is the ordered filter of the overlap test, with the
intersection bounds recorded and the flag accumulating on any hit (stated
for existing intervals that are already normalized, `p.1 < p.2`). -/
theorem conflictLoop_char (cs ce : Int) (evs : List (Int × Int))
    (acc : Bool × List Conflict) (he : ∀ p ∈ evs, p.1 < p.2) :
    conflictLoop cs ce evs acc =
      (acc.1 || !(evs.filter (overlapTest cs ce)).isEmpty,
        acc.2 ++ (evs.filter (overlapTest cs ce)).map (mkConflict cs ce)) := by
  induction evs generalizing acc with
  | nil => simp [conflictLoop]
  | cons q rest ih =>
    obtain ⟨es, ee⟩ := q
    have hq : es < ee := he (es, ee) (List.mem_cons_self _ _)
    have hrest : ∀ p ∈ rest, p.1 < p.2 := fun p hp => he p (List.mem_cons_of_mem _ hp)
    have hnorm : normalizeExistingEnd es ee = ee := by
      simp [normalizeExistingEnd, not_le.mpr hq]
    cases hov : overlapTest cs ce (es, ee) with
    | true =>
      have hc' : (decide (cs < ee) && decide (ce > es)) = true := hov
      simp only [conflictLoop, hnorm, hc', if_true]
      rw [ih _ hrest]
      simp [List.filter_cons, hov, mkConflict]
    | false =>
      have hc' : (decide (cs < ee) && decide (ce > es)) = false := hov
      simp only [conflictLoop, hnorm, hc', if_false]
      rw [ih _ hrest]
      simp [List.filter_cons, hov]

/-- The existing-interval set is already cross-midnight normalized. -/
def eventsNormalized (evs : List (Int × Int)) : Prop := ∀ p ∈ evs, p.1 < p.2

instance (evs : List (Int × Int)) : Decidable (eventsNormalized evs) := by
  unfold eventsNormalized
  infer_instance

/-- C1: for every proposed interval and every list of existing event
intervals, both after cross-midnight normalization, the Conflict Resolver
reports a conflict with an existing interval iff
`proposedStart < existingEnd` and `proposedEnd > existingStart` (so touching
at an endpoint is never a conflict); each reported conflict carries the
overlap bounds `max(starts)`/`min(ends)`; conflicts appear in the scan order
of the existing intervals; and `hasConflict` is true iff the reported
conflict sequence is non-empty. -/
theorem check_time_conflict_char (s e : Int) (evs : List (Int × Int))
    (hp : s ≤ e) (he : eventsNormalized evs) :
    check_time_conflict s e evs =
      (!(evs.filter (overlapTest s e)).isEmpty,
        (evs.filter (overlapTest s e)).map (mkConflict s e)) := by
  have hnp : normalizeProposedEnd s e = e := by
    simp [normalizeProposedEnd, not_lt.mpr hp]
  unfold check_time_conflict
  rw [hnp, conflictLoop_char s e evs (false, []) he]
  simp

/-- Witness for C1: the spec's half-open example — the proposal 14:00–15:00
touches 13:00–14:00 (no conflict) and overlaps 14:30–15:30 on
\[14:30, 15:00\]. -/
theorem check_time_conflict_char_witness :
    (840 : Int) ≤ 900 ∧ eventsNormalized [((780 : Int), (840 : Int)), (870, 930)] ∧
    check_time_conflict 840 900 [(780, 840), (870, 930)] =
      (true, [⟨870, 930, 870, 900⟩]) :=
  ⟨by decide, by decide,
    (check_time_conflict_char 840 900 [(780, 840), (870, 930)] (by decide)
      (by decide)).trans (by decide)⟩

/-- Counterexample for C6: the claim says one day is added to the proposed
end whenever `proposedEnd ≤ proposedStart`, but at the equal-endpoint
proposal 14:00–14:00 the code's strict comparison leaves the end unchanged:
the code reports no conflict with 15:00–16:00, while the loop run on the
day-extended proposal mandated by the claim does report one. -/
theorem proposed_normalization_cex :
    (840 : Int) ≤ 840 ∧
    normalizeProposedEnd 840 840 = 840 ∧
    check_time_conflict 840 840 [((900 : Int), (960 : Int))] = (false, []) ∧
    conflictLoop 840 (840 + oneDay) [(900, 960)] (false, []) =
      (true, [⟨900, 960, 900, 960⟩]) :=
  ⟨by decide, by decide, by decide, by decide⟩

/-- C6 (amended): a scanned existing event gets one day added to its end
exactly when `parsedEnd ≤ parsedStart`, while the proposed interval gets one
day added exactly when `proposedEnd < proposedStart` — an equal-endpoint
proposal is left unchanged; otherwise both ends are left unchanged. -/
theorem cross_midnight_normalization (s e : Int) :
    (e ≤ s → normalizeExistingEnd s e = e + oneDay) ∧
    (s < e → normalizeExistingEnd s e = e) ∧
    (e < s → normalizeProposedEnd s e = e + oneDay) ∧
    (s ≤ e → normalizeProposedEnd s e = e) := by
  unfold normalizeExistingEnd normalizeProposedEnd
  refine ⟨fun h => ?_, fun h => ?_, fun h => ?_, fun h => ?_⟩ <;> split_ifs <;> omega

/-- Witness for the amended C6 at concrete endpoints. -/
theorem cross_midnight_normalization_witness :
    ((840 : Int) ≤ 840 ∧ normalizeExistingEnd 840 840 = 840 + oneDay) ∧
    ((840 : Int) < 900 ∧ normalizeExistingEnd 840 900 = 900) ∧
    ((830 : Int) < 840 ∧ normalizeProposedEnd 840 830 = 830 + oneDay) ∧
    ((840 : Int) ≤ 840 ∧ normalizeProposedEnd 840 840 = 840) :=
  ⟨⟨by decide, (cross_midnight_normalization 840 840).1 (by decide)⟩,
   ⟨by decide, (cross_midnight_normalization 840 900).2.1 (by decide)⟩,
   ⟨by decide, (cross_midnight_normalization 840 830).2.2.1 (by decide)⟩,
   ⟨by decide, (cross_midnight_normalization 840 840).2.2.2 (by decide)⟩⟩

/-- C2 (the code at the failing input "23:30", reference date 2025-11-28):
the Time Resolver returns the degenerate pair 23:30–23:30, the Date Resolver
picks 2025-12-23, and the one-hour widening computes `dt_start + 1h` but
then recombines only its **time** 00:30 with the original date, so the
returned end instant is strictly *smaller* than the start instant —
contradicting the claimed carry into the next calendar date and the claimed
`end > start` invariant. -/
theorem parse_degenerate_widening_bug :
    parse ⟨2025, 11, 28⟩ (String.toList "23:30") =
      .ok (.success (String.toList "日程安排")
        (Date.toOrdinal ⟨2025, 12, 23⟩ * 1440 + (23 * 60 + 30))
        (Date.toOrdinal ⟨2025, 12, 23⟩ * 1440 + (0 * 60 + 30))) ∧
    Date.toOrdinal ⟨2025, 12, 23⟩ * 1440 + (0 * 60 + 30) <
      Date.toOrdinal ⟨2025, 12, 23⟩ * 1440 + (23 * 60 + 30) :=
  ⟨rfl, by decide⟩

/-- C3 (the code at the failing input "大后天开会"): an input containing
大后天 also contains the substring 后天, whose branch is checked first, so
the resolver returns the reference date plus 2 days, never plus 3 — the
大后天 branch of `_parse_base_keywords` is unreachable. -/
theorem base_keyword_dahoutian_bug :
    parse_base_keywords (String.toList "大后天开会") ⟨2025, 11, 28⟩ =
      some (addDaysI ⟨2025, 11, 28⟩ 2) ∧
    addDaysI ⟨2025, 11, 28⟩ 2 = ⟨2025, 11, 30⟩ ∧
    addDaysI ⟨2025, 11, 28⟩ 3 = ⟨2025, 12, 1⟩ ∧
    (⟨2025, 11, 30⟩ : Date) ≠ ⟨2025, 12, 1⟩ :=
  ⟨rfl, rfl, rfl, by decide⟩

/-- Counterexample for C4: the end-to-end parse of
"明天下午2点到3点,团队会议" (reference date 2025-11-28) succeeds with the
claimed start and end instants, but the title keeps the separating comma —
it is ",团队会议", not the claimed "团队会议" (no stripping rule ever
removes a comma). -/
theorem end_to_end_title_cex :
    parse ⟨2025, 11, 28⟩ (String.toList "明天下午2点到3点,团队会议") =
      .ok (.success (String.toList ",团队会议")
        (Date.toOrdinal ⟨2025, 11, 29⟩ * 1440 + 14 * 60)
        (Date.toOrdinal ⟨2025, 11, 29⟩ * 1440 + 15 * 60)) ∧
    String.toList ",团队会议" ≠ String.toList "团队会议" :=
  ⟨rfl, by decide⟩

/-- C4 (amended): parsing "明天下午2点到3点,团队会议" with reference date
2025-11-28 succeeds and yields exactly the title ",团队会议" (the comma is
retained), start instant 2025-11-29T14:00 and end instant 2025-11-29T15:00. -/
theorem end_to_end_parse :
    parse ⟨2025, 11, 28⟩ (String.toList "明天下午2点到3点,团队会议") =
      .ok (.success (String.toList ",团队会议")
        (Date.toOrdinal ⟨2025, 11, 29⟩ * 1440 + 14 * 60)
        (Date.toOrdinal ⟨2025, 11, 29⟩ * 1440 + 15 * 60)) :=
  rfl

/-- The relative-weekday grammar itself implements the claimed offsets: for
every reference date with weekday index `W` (Monday = 0) and every weekday
character of index `W'`, a text starting 本周X or 这周X makes
`_parse_relative_weekday` return the reference date plus `W' − W` days when
`W' − W > 0` and plus `W' − W + 7` days otherwise. -/
theorem this_week_next_occurrence (today : Date) (c : Char) (w : Nat) (rest : List Char)
    (hc : weekdayCnChar c = true) (hw : weekdayMapGet c = some w) :
    parse_relative_weekday ('本' :: '周' :: c :: rest) today =
      some (addDaysI today
        (if 0 < (w : Int) - (today.weekday : Int) then (w : Int) - (today.weekday : Int)
         else (w : Int) - (today.weekday : Int) + 7)) ∧
    parse_relative_weekday ('这' :: '周' :: c :: rest) today =
      some (addDaysI today
        (if 0 < (w : Int) - (today.weekday : Int) then (w : Int) - (today.weekday : Int)
         else (w : Int) - (today.weekday : Int) + 7)) := by
  have harith : ∀ d : Int, (if d ≤ 0 then d + 7 else d) = (if 0 < d then d else d + 7) := by
    intro d
    split_ifs <;> omega
  have h1 : relWeekdayM ('本' :: '周' :: c :: rest) = some ((['本'], c), rest) := by
    simp [relWeekdayM, matchOpt, matchAlts, matchLit, skipSpaces, isSpaceCh, hc]
  have h1' : relWeekdayM ('这' :: '周' :: c :: rest) = some ((['这'], c), rest) := by
    simp [relWeekdayM, matchOpt, matchAlts, matchLit, skipSpaces, isSpaceCh, hc]
  have h2 : searchFirst relWeekdayM ('本' :: '周' :: c :: rest) = some ((['本'], c), rest) := by
    simp [searchFirst, h1]
  have h2' : searchFirst relWeekdayM ('这' :: '周' :: c :: rest) = some ((['这'], c), rest) := by
    simp [searchFirst, h1']
  constructor
  · unfold parse_relative_weekday
    rw [h2]
    simp [hw, harith]
    congr 1
    split_ifs <;> omega
  · unfold parse_relative_weekday
    rw [h2']
    simp [hw, harith]
    congr 1
    split_ifs <;> omega

/-- Instance of the grammar-level offset: 本周五 on Friday 2025-11-28 gives
the next Friday 2025-12-05, seven days later. -/
theorem this_week_next_occurrence_witness :
    weekdayCnChar '五' = true ∧ weekdayMapGet '五' = some 4 ∧
    parse_relative_weekday ('本' :: '周' :: ['五']) ⟨2025, 11, 28⟩ =
      some (addDaysI ⟨2025, 11, 28⟩
        (if 0 < (4 : Int) - ((Date.weekday ⟨2025, 11, 28⟩ : Nat) : Int) then
          (4 : Int) - ((Date.weekday ⟨2025, 11, 28⟩ : Nat) : Int)
         else (4 : Int) - ((Date.weekday ⟨2025, 11, 28⟩ : Nat) : Int) + 7)) ∧
    addDaysI ⟨2025, 11, 28⟩
        (if 0 < (4 : Int) - ((Date.weekday ⟨2025, 11, 28⟩ : Nat) : Int) then
          (4 : Int) - ((Date.weekday ⟨2025, 11, 28⟩ : Nat) : Int)
         else (4 : Int) - ((Date.weekday ⟨2025, 11, 28⟩ : Nat) : Int) + 7) = ⟨2025, 12, 5⟩ :=
  ⟨by decide, by decide,
    (this_week_next_occurrence ⟨2025, 11, 28⟩ '五' 4 [] (by decide) (by decide)).1,
    by decide⟩

/-- C5 (the code at the failing input "本周五下午2点", reference date
2025-11-28, a Friday, the repository's own test input): the Date Resolver
does not return the claimed +7 date. Normalization leaves the text
unchanged, and the day-only grammar (priority 2) captures the hour digit 2
of 下午2点 as a day-of-month, returning 2025-12-02 before the
relative-weekday grammar (priority 3) is ever consulted — although that
grammar, applied to the same text, yields the claimed 2025-12-05, as does
the whole resolver on the digit-free text 本周五. -/
theorem this_week_date_resolver_bug :
    normalizeAll (String.toList "本周五下午2点") = String.toList "本周五下午2点" ∧
    extract_date (String.toList "本周五下午2点") ⟨2025, 11, 28⟩ = ⟨2025, 12, 2⟩ ∧
    parse_relative_weekday (String.toList "本周五下午2点") ⟨2025, 11, 28⟩ =
      some ⟨2025, 12, 5⟩ ∧
    extract_date (String.toList "本周五") ⟨2025, 11, 28⟩ = ⟨2025, 12, 5⟩ ∧
    Date.weekday ⟨2025, 11, 28⟩ = 4 ∧
    (⟨2025, 12, 2⟩ : Date) ≠ ⟨2025, 12, 5⟩ :=
  ⟨rfl, rfl, rfl, rfl, rfl, by decide⟩

/-- Mapping a success tag over a time-resolution result can never produce a
"no time found" answer. -/
theorem map_some_ne_ok_none (x : Except PyErr (Tod × Tod)) :
    Except.map some x ≠ .ok none := by
  cases x <;> simp [Except.map]

/-- The Time Resolver answers "no time found" exactly when none of its five
patterns matches anywhere in the text. -/
theorem extract_time_ok_none_iff (t : List Char) :
    extract_time t = .ok none ↔
      (searchFirst cnRangeM t = none ∧ searchFirst digitalRangeM t = none ∧
       searchFirst mixedRangeM t = none ∧ searchFirst cnSingleM t = none ∧
       searchFirst digitalSingleM t = none) := by
  unfold extract_time
  cases h0 : searchFirst cnRangeM t with
  | some v => simp [map_some_ne_ok_none]
  | none =>
    cases h1 : searchFirst digitalRangeM t with
    | some v => simp [map_some_ne_ok_none]
    | none =>
      cases h2 : searchFirst mixedRangeM t with
      | some v => simp
      | none =>
        cases h3 : searchFirst cnSingleM t with
        | some v => simp [map_some_ne_ok_none]
        | none =>
          cases h4 : searchFirst digitalSingleM t with
          | some v => simp [map_some_ne_ok_none]
          | none => simp

/-- A parse returns the failure variant exactly when the Time Resolver found
nothing, and the failure always carries the fixed message. -/
theorem parse_failure_eq (today : Date) (text : List Char) (m : List Char) :
    parse today text = .ok (.failure m) ↔
      (extract_time (normalizeAll text) = .ok none ∧ m = failMsg) := by
  unfold parse
  cases het : extract_time (normalizeAll text) with
  | error e => simp [het, eq_comm]
  | ok o =>
    cases o with
    | none => simp [het, eq_comm]
    | some p =>
      obtain ⟨st, en⟩ := p
      simp [het]

/-- C7: for every input string (and reference date), `parse` returns a
Failure iff the Time Resolver finds neither a time-range pattern nor a
single-time pattern in the normalized text; the Failure carries the one
fixed user-facing message, and this is the only failure result `parse`
returns — date resolution always succeeds and never contributes a failure. -/
theorem parse_failure_iff (today : Date) (text : List Char) (m : List Char) :
    parse today text = .ok (.failure m) ↔
      ((searchFirst cnRangeM (normalizeAll text) = none ∧
        searchFirst digitalRangeM (normalizeAll text) = none ∧
        searchFirst mixedRangeM (normalizeAll text) = none ∧
        searchFirst cnSingleM (normalizeAll text) = none ∧
        searchFirst digitalSingleM (normalizeAll text) = none) ∧
       m = failMsg) := by
  rw [parse_failure_eq, extract_time_ok_none_iff]

/-- A validated `time(h, m)` is always in range. -/
theorem mkTod_ok_bounds {h m : Nat} {t : Tod} (hok : mkTod h m = .ok t) :
    t.hour ≤ 23 ∧ t.minute ≤ 59 := by
  unfold mkTod at hok
  by_cases hc : (decide (h ≤ 23) && decide (m ≤ 59)) = true
  · rw [if_pos hc] at hok
    cases hok
    simp only [Bool.and_eq_true, decide_eq_true_eq] at hc
    exact hc
  · rw [if_neg hc] at hok
    simp at hok

/-- A validated time pair is always in range. -/
theorem mkTodPair_ok_bounds {a b c d : Nat} {p : Tod × Tod}
    (hok : mkTodPair a b c d = .ok p) :
    p.1.hour ≤ 23 ∧ p.1.minute ≤ 59 ∧ p.2.hour ≤ 23 ∧ p.2.minute ≤ 59 := by
  unfold mkTodPair at hok
  cases h1 : mkTod a b with
  | error e => simp [h1] at hok
  | ok s =>
    cases h2 : mkTod c d with
    | error e => simp [h1, h2] at hok
    | ok t =>
      simp only [h1, h2] at hok
      cases hok
      have hs := mkTod_ok_bounds h1
      have ht := mkTod_ok_bounds h2
      exact ⟨hs.1, hs.2, ht.1, ht.2⟩

/-- Inverting the success tag on a time-resolution result. -/
theorem map_some_ok {x : Except PyErr (Tod × Tod)} {p : Tod × Tod}
    (h : Except.map some x = .ok (some p)) : x = .ok p := by
  cases x with
  | error e => simp [Except.map] at h
  | ok q =>
    simp only [Except.map, Option.some.injEq, Except.ok.injEq] at h
    rw [h]

/-- Counterexample for C8: on the input "25点" the Time Resolver parses the
raw hour 25, the (absent) day-period adjustment leaves it at 25, and the
time-of-day construction hits its error branch, so `parse` aborts rather
than returning a pair or nothing. -/
theorem extract_time_overflow_cex :
    extract_time (String.toList "25点") = .error .valueError := rfl

/-- C8 (amended): whenever the Time Resolver does return a pair (rather than
nothing or an error), the hours are 0–23 and the minutes 0–59; raw parsed
values out of range (such as 25点, or a noon range whose end hour is
already ≥ 12) instead make the time construction error and `parse` abort. -/
theorem extract_time_pair_bounds (text : List Char) (st en : Tod)
    (h : extract_time text = .ok (some (st, en))) :
    st.hour ≤ 23 ∧ st.minute ≤ 59 ∧ en.hour ≤ 23 ∧ en.minute ≤ 59 := by
  unfold extract_time at h
  cases h0 : searchFirst cnRangeM text with
  | some v =>
    simp only [h0] at h
    exact mkTodPair_ok_bounds (map_some_ok h)
  | none =>
    simp only [h0] at h
    cases h1 : searchFirst digitalRangeM text with
    | some v =>
      simp only [h1] at h
      exact mkTodPair_ok_bounds (map_some_ok h)
    | none =>
      simp only [h1] at h
      cases h2 : searchFirst mixedRangeM text with
      | some v => simp [h2] at h
      | none =>
        simp only [h2] at h
        cases h3 : searchFirst cnSingleM text with
        | some v =>
          simp only [h3] at h
          exact mkTodPair_ok_bounds (map_some_ok h)
        | none =>
          simp only [h3] at h
          cases h4 : searchFirst digitalSingleM text with
          | some v =>
            simp only [h4] at h
            exact mkTodPair_ok_bounds (map_some_ok h)
          | none => simp [h4] at h

/-- Witness for the amended C8: "下午2点" resolves to the in-range pair
14:00–14:00. -/
theorem extract_time_pair_bounds_witness :
    extract_time (String.toList "下午2点") = .ok (some (⟨14, 0⟩, ⟨14, 0⟩)) ∧
    ((14 : Nat) ≤ 23 ∧ (0 : Nat) ≤ 59 ∧ (14 : Nat) ≤ 23 ∧ (0 : Nat) ≤ 59) :=
  ⟨rfl, extract_time_pair_bounds (String.toList "下午2点") ⟨14, 0⟩ ⟨14, 0⟩ rfl⟩

/-- Script canonicalization is idempotent on a single character. -/
theorem normalize_text_single (c : Char) :
    normalize_text (normalize_text [c]) = normalize_text [c] := by
  by_cases h1 : c = '兩'
  · subst h1; rfl
  by_cases h2 : c = '會'
  · subst h2; rfl
  by_cases h3 : c = '幫'
  · subst h3; rfl
  by_cases h4 : c = '點'
  · subst h4; rfl
  by_cases h5 : c = '今'
  · subst h5; rfl
  by_cases h6 : c = '明'
  · subst h6; rfl
  by_cases h7 : c = '後'
  · subst h7; rfl
  by_cases h8 : c = '钟'
  · subst h8; rfl
  by_cases h9 : c = '鐘'
  · subst h9; rfl
  by_cases h10 : c = '號'
  · subst h10; rfl
  by_cases h11 : c = '週'
  · subst h11; rfl
  simp [normalize_text, replaceChar, h1, h2, h3, h4, h5, h6, h7, h8, h9, h10, h11]

/-- Counterexample for C9: on "12 25会议" the space removal of the last
normalization stage juxtaposes the digit runs, so the compact numeric-date
rewrite of the second stage fires only on a second pass — one application
gives "1225会议", two give "12月25日". -/
theorem normalization_not_idempotent_cex :
    normalizeAll (String.toList "12 25会议") = String.toList "1225会议" ∧
    normalizeAll (normalizeAll (String.toList "12 25会议")) = String.toList "12月25日" ∧
    normalizeAll (normalizeAll (String.toList "12 25会议")) ≠
      normalizeAll (String.toList "12 25会议") :=
  ⟨rfl, rfl, by decide⟩

/-- C9 (amended): the composed normalization is not idempotent — the space
removal performed by the date-pattern preprocessing can expose a compact
numeric date that the homophone-correction stage rewrites only on a second
pass — but the script-canonicalization stage alone is idempotent: applying
it twice yields the same string as applying it once, for every input. -/
theorem normalize_text_idempotent (l : List Char) :
    normalize_text (normalize_text l) = normalize_text l := by
  have happ : ∀ a b : List Char,
      normalize_text (a ++ b) = normalize_text a ++ normalize_text b := by
    intro a b
    simp [normalize_text, replaceChar]
  induction l with
  | nil => rfl
  | cons c t ih =>
    have hc : normalize_text (c :: t) = normalize_text [c] ++ normalize_text t := by
      simp [normalize_text, replaceChar]
    rw [hc, happ, normalize_text_single, ih, ← hc]

/-- Counterexample for C10: the input "45开会" contains a bare two-digit
number and matches none of the other grammars, yet the Date Resolver *does*
return the reference date: the day-only grammar reads day 45, the date
construction fails, every grammar rejects, and the documented today-fallback
fires. -/
theorem date_fallback_reachable_cex :
    parse_base_keywords (removeSpaces (String.toList "45开会")) ⟨2025, 11, 28⟩ = none ∧
    searchFirst mdLiteralM (removeSpaces (String.toList "45开会")) = none ∧
    searchFirst mdSepM (removeSpaces (String.toList "45开会")) = none ∧
    (searchFirst dayOnlyM (removeSpaces (String.toList "45开会"))).map Prod.fst = some 45 ∧
    parse_specific_date (removeSpaces (String.toList "45开会")) ⟨2025, 11, 28⟩ = none ∧
    parse_relative_weekday (removeSpaces (String.toList "45开会")) ⟨2025, 11, 28⟩ = none ∧
    parse_week_month_date (removeSpaces (String.toList "45开会")) ⟨2025, 11, 28⟩ = none ∧
    parse_day_relative_date (removeSpaces (String.toList "45开会")) ⟨2025, 11, 28⟩ = none ∧
    extract_date (String.toList "45开会") ⟨2025, 11, 28⟩ = ⟨2025, 11, 28⟩ :=
  ⟨rfl, rfl, rfl, rfl, rfl, rfl, rfl, rfl, rfl⟩

/-- C10 (amended): when no base keyword and no month+day literal matches but
a bare 1-or-2-digit number occurs, the day-only grammar treats that number
as a day-of-month in the reference month (rolling one month forward, with
year rollover, when the number is smaller than the reference day), and the
Date Resolver returns that date whenever the construction succeeds; the
today-fallback remains reachable when the construction fails, and the
reference date itself is returned when the number equals the reference day. -/
theorem day_only_grammar_resolution (today : Date) (text : List Char) (n : Nat) (d : Date)
    (hb : parse_base_keywords (removeSpaces text) today = none)
    (h1 : searchFirst mdLiteralM (removeSpaces text) = none)
    (h2 : searchFirst mdSepM (removeSpaces text) = none)
    (h3 : (searchFirst dayOnlyM (removeSpaces text)).map Prod.fst = some n)
    (h4 : specificFromDayOnly today n = some d) :
    extract_date text today = d ∧ d.day = n := by
  have hd : d.day = n := by
    unfold specificFromDayOnly at h4
    split_ifs at h4
    all_goals simp at h4
    all_goals rw [← h4.2]
  have hsp : parse_specific_date (removeSpaces text) today = some d := by
    unfold parse_specific_date
    cases hs : searchFirst dayOnlyM (removeSpaces text) with
    | none =>
      rw [hs] at h3
      simp at h3
    | some p =>
      obtain ⟨day, rest⟩ := p
      rw [hs] at h3
      simp at h3
      subst h3
      simp [h1, h2, hs, h4]
  constructor
  · unfold extract_date
    simp [hb, hsp]
  · exact hd

/-- Witness for the amended C10: "9:30开会" (reference date 2025-11-28) — the
bare hour digit 9 is taken as a day-of-month; 9 < 28 rolls one month
forward, giving 2025-12-09. -/
theorem day_only_grammar_resolution_witness :
    parse_base_keywords (removeSpaces (String.toList "9:30开会")) ⟨2025, 11, 28⟩ = none ∧
    searchFirst mdLiteralM (removeSpaces (String.toList "9:30开会")) = none ∧
    searchFirst mdSepM (removeSpaces (String.toList "9:30开会")) = none ∧
    (searchFirst dayOnlyM (removeSpaces (String.toList "9:30开会"))).map Prod.fst = some 9 ∧
    specificFromDayOnly ⟨2025, 11, 28⟩ 9 = some ⟨2025, 12, 9⟩ ∧
    (extract_date (String.toList "9:30开会") ⟨2025, 11, 28⟩ = ⟨2025, 12, 9⟩ ∧
      Date.day ⟨2025, 12, 9⟩ = 9) :=
  ⟨rfl, rfl, rfl, rfl, rfl,
    day_only_grammar_resolution ⟨2025, 11, 28⟩ (String.toList "9:30开会") 9 ⟨2025, 12, 9⟩
      rfl rfl rfl rfl rfl⟩

end VCA
